import Mathlib

/-!
Shallow embedding of the lost-and-found announcement board
(`tech_expo-3.py`): the record store (`load_data` / `save_data`), the
announcement service (creation in `report_page`, deletion in
`search_page`) and the filter engine (the filter chain of
`search_page`).  Records are rows of thirteen named columns; the
persisted store is a header row plus one list of cells per record.
Python string primitives used by the code (`str.lower`, `str.strip`,
`str.isdigit`, the regular-expression search behind pandas
`str.contains`, lexicographic comparison) are modelled as executable
functions on the character lists underlying `String`.
-/

/-- Model of Python `str.lower` (maps each character to lower case). -/
def lowerStr (s : String) : String := ⟨s.data.map Char.toLower⟩

/-- Model of Python `str.strip()`: drop whitespace from both ends. -/
def stripStr (s : String) : String :=
  ⟨((s.data.dropWhile Char.isWhitespace).reverse.dropWhile Char.isWhitespace).reverse⟩

/-- Model of the phone validation `len(phone) == 8 and phone.isdigit()`. -/
def phoneOk (s : String) : Bool :=
  decide (s.data.length = 8) && s.data.all Char.isDigit

/-- Is `pat` a prefix of `l`?  (model of Python substring search, step). -/
def isPrefixB : List Char → List Char → Bool
  | [], _ => true
  | _ :: _, [] => false
  | a :: as, b :: bs => a == b && isPrefixB as bs

/-- Is `pat` a contiguous substring of `l`? -/
def isSubB (pat : List Char) : List Char → Bool
  | [] => pat.isEmpty
  | c :: rest => isPrefixB pat (c :: rest) || isSubB pat rest

/-- Case-insensitive literal substring containment: the reading the
specification gives the keyword filter.  The code's own predicate is
`containsRe` below; the two agree exactly on keywords free of regular
expression metacharacters. -/
def containsCI (s pat : String) : Bool :=
  isSubB (lowerStr pat).data (lowerStr s).data

/-- One compiled atom of a Python regular expression pattern: a literal
character, or `.` (any character except newline). -/
inductive RAtom where
  | rchar (c : Char)
  | rdot
deriving DecidableEq

/-- The characters Python's `re` module treats as special (the set
escaped by `re.escape`); braces and the backslash are written by code
point. -/
def reMeta : List Char :=
  ['.', '^', '$', '*', '+', '?', Char.ofNat 123, Char.ofNat 125,
   '[', ']', Char.ofNat 92, '|', '(', ')']

/-- Compile a pattern to atoms.  Modelled subset of Python `re`: ordinary
characters and the metacharacter `.`; the remaining metacharacters are
outside the modelled subset (this function reads them as literals), and
the theorems below evaluate the model only on patterns inside the
subset. -/
def compilePat : List Char → List RAtom
  | [] => []
  | c :: rest =>
    (if c = '.' then RAtom.rdot else RAtom.rchar c) :: compilePat rest

/-- One atom against one character, under `re.IGNORECASE` (the `case=False`
flag); `.` matches any character except newline. -/
def atomMatch (a : RAtom) (c : Char) : Bool :=
  match a with
  | RAtom.rchar p => p.toLower == c.toLower
  | RAtom.rdot => !(c == Char.ofNat 10)

/-- Do the atoms match a prefix of `l`? -/
def reMatchHere : List RAtom → List Char → Bool
  | [], _ => true
  | _ :: _, [] => false
  | a :: ats, c :: cs => atomMatch a c && reMatchHere ats cs

/-- Do the atoms match anywhere in `l`?  (`re.search` semantics). -/
def reSearch (ats : List RAtom) : List Char → Bool
  | [] => reMatchHere ats []
  | c :: cs => reMatchHere ats (c :: cs) || reSearch ats cs

/-- Model of `Series.str.contains(pat, case=False)` on one cell: pandas
treats `pat` as a regular expression (`regex=True` by default) and
searches it case-insensitively. -/
def containsRe (s pat : String) : Bool :=
  reSearch (compilePat pat.data) s.data

/-- Lexicographic `≤` on character lists by code point: the order Python
(and hence pandas `sort_values` on a string column) uses. -/
def lexLe : List Char → List Char → Bool
  | [], _ => true
  | _ :: _, [] => false
  | a :: as, b :: bs =>
    if a.toNat = b.toNat then lexLe as bs else decide (a.toNat < b.toNat)

/-- Lexicographic `≤` on strings. -/
def strLe (s t : String) : Bool := lexLe s.data t.data

/-- One announcement record: the thirteen columns of the table. -/
structure Announcement where
  ID : String
  «Type» : String
  Category : String
  City : String
  Description : String
  Image1 : String
  Image2 : String
  Image3 : String
  Phone : String
  Date : String
  EventDate : String
  DeletePassword : String
  Resolved : Bool
deriving DecidableEq

/-- The form input of the report page. -/
structure CreateInput where
  postType : String
  category : String
  city : String
  description : String
  eventDate : String
  phone : String
  deletePassword : String
  images : List String
deriving DecidableEq

/-- Validation failures of the report form, in the order the code checks. -/
inductive ValidationError where
  | emptyDescription
  | invalidPhone
  | emptyPassword
deriving DecidableEq

/-- Failure of the delete-password check. -/
inductive AuthError where
  | wrongPassword
deriving DecidableEq

/-- The persisted store: a header row naming the columns, and one list of
cells per record (the CSV file written by `save_data`). -/
structure Csv where
  header : List String
  rows : List (List String)
deriving DecidableEq

/-- The canonical column list of `load_data`. -/
def columns : List String :=
  ["ID", "Type", "Category", "City", "Description",
   "Image1", "Image2", "Image3", "Phone",
   "Date", "EventDate", "DeletePassword", "Resolved"]

/-- Cell of column `c` in a row, given the file's header; a column absent
from the header reads as the backfilled empty string (`df[c] = ""`). -/
def rowGet (h : List String) (cells : List String) (c : String) : String :=
  match h.findIdx? (fun x => x == c) with
  | some i => cells.getD i ""
  | none => ""

/-- The lenient boolean coercion of the `Resolved` column:
`str.lower().map({"true": True, "false": False, "1": True, "0": False}).fillna(False)`. -/
def parseResolved (s : String) : Bool :=
  if lowerStr s = "true" then true
  else if lowerStr s = "1" then true
  else false

/-- Build one record from a row of the persisted file. -/
def parseRow (h : List String) (cells : List String) : Announcement :=
  { ID := rowGet h cells "ID"
    «Type» := rowGet h cells "Type"
    Category := rowGet h cells "Category"
    City := rowGet h cells "City"
    Description := rowGet h cells "Description"
    Image1 := rowGet h cells "Image1"
    Image2 := rowGet h cells "Image2"
    Image3 := rowGet h cells "Image3"
    Phone := rowGet h cells "Phone"
    Date := rowGet h cells "Date"
    EventDate := rowGet h cells "EventDate"
    DeletePassword := rowGet h cells "DeletePassword"
    Resolved := parseResolved (rowGet h cells "Resolved") }

/-- `load_data`: no file yields the empty table; otherwise every row is
read through the canonical columns (missing columns backfilled, extra
columns ignored, `Resolved` coerced to boolean). -/
def load_data (file : Option Csv) : List Announcement :=
  match file with
  | none => []
  | some csv => csv.rows.map (parseRow csv.header)

/-- The cells of one record, in canonical column order; `Resolved` is
serialized as Python prints a bool (`True` / `False`). -/
def rowCells (a : Announcement) : List String :=
  [a.ID, a.«Type», a.Category, a.City, a.Description,
   a.Image1, a.Image2, a.Image3, a.Phone,
   a.Date, a.EventDate, a.DeletePassword,
   if a.Resolved then "True" else "False"]

/-- `save_data`: overwrite the store with header plus all rows. -/
def save_data (df : List Announcement) : Csv :=
  ⟨columns, df.map rowCells⟩

/-- `save_images`: keep at most three paths and pad with `""` to three. -/
def save_images (files : List String) : List String :=
  let kept := files.take 3
  kept ++ List.replicate (3 - kept.length) ""

/-- The `new_post` dictionary built by `report_page` on a valid submit. -/
def new_post (df : List Announcement) (inp : CreateInput) (today : String) :
    Announcement :=
  let paths := save_images inp.images
  { ID := toString (df.length + 1)
    «Type» := lowerStr inp.postType
    Category := inp.category
    City := inp.city
    Description := inp.description
    Image1 := paths.getD 0 ""
    Image2 := paths.getD 1 ""
    Image3 := paths.getD 2 ""
    Phone := inp.phone
    Date := today
    EventDate := inp.eventDate
    DeletePassword := stripStr inp.deletePassword
    Resolved := false }

/-- The validation/append logic of `report_page`'s submit handler. -/
def create (df : List Announcement) (inp : CreateInput) (today : String) :
    Except ValidationError (List Announcement) :=
  if inp.description = "" then .error .emptyDescription
  else if phoneOk inp.phone = false then .error .invalidPhone
  else if inp.deletePassword = "" then .error .emptyPassword
  else .ok (df ++ [new_post df inp today])

/-- The submit action including persistence: `save_data` runs only on the
success branch; on a validation error the table and the file are left as
they were. -/
def submitAction (df : List Announcement) (file : Option Csv)
    (inp : CreateInput) (today : String) :
    List Announcement × Option Csv × Option ValidationError :=
  match create df inp today with
  | .error e => (df, file, some e)
  | .ok df2 => (df2, some (save_data df2), none)

/-- The delete action of `search_page` for a displayed record `R`: on a
password match it drops every row whose `ID` equals `R.ID` and persists;
otherwise it reports the error and touches nothing. -/
def deleteAction (df : List Announcement) (file : Option Csv)
    (R : Announcement) (entered : String) :
    List Announcement × Option Csv × Option AuthError :=
  if entered = R.DeletePassword then
    let df2 := df.filter (fun a => !(a.ID == R.ID))
    (df2, some (save_data df2), none)
  else
    (df, file, some .wrongPassword)

/-- Split a character list at `-` separators (for date parsing). -/
def splitDash : List Char → List (List Char)
  | [] => [[]]
  | c :: rest =>
    if c = '-' then [] :: splitDash rest
    else
      match splitDash rest with
      | h :: t => (c :: h) :: t
      | [] => [[c]]

/-- Numeric value of a digit list. -/
def digitsVal (l : List Char) : Nat :=
  l.foldl (fun n c => n * 10 + (c.toNat - 48)) 0

/-- Model of `pd.to_datetime(s, errors="coerce")` on the `YYYY-MM-DD`
strings this application writes: a valid date becomes the order-preserving
code `y * 10000 + m * 100 + d`, anything else becomes `none` (NaT). -/
def parseDate (s : String) : Option Nat :=
  match splitDash s.data with
  | [y, m, d] =>
    if y.length = 4 && y.all Char.isDigit &&
       m.length = 2 && m.all Char.isDigit &&
       d.length = 2 && d.all Char.isDigit then
      let mn := digitsVal m
      let dn := digitsVal d
      if 1 ≤ mn && mn ≤ 12 && 1 ≤ dn && dn ≤ 31 then
        some (digitsVal y * 10000 + mn * 100 + dn)
      else none
    else none
  | _ => none

/-- Stage 1 of the filter chain: type equality against the lowercased
selection, skipped on `"All"`. -/
def typeStage (l : List Announcement) (ft : String) : List Announcement :=
  if ft = "All" then l else l.filter (fun a => a.«Type» == lowerStr ft)

/-- Stage 2: category exact match, skipped on `"All"`. -/
def categoryStage (l : List Announcement) (fc : String) : List Announcement :=
  if fc = "All" then l else l.filter (fun a => a.Category == fc)

/-- Stage 3: city exact match, skipped on `"All"`. -/
def cityStage (l : List Announcement) (fc : String) : List Announcement :=
  if fc = "All" then l else l.filter (fun a => a.City == fc)

/-- Stage 4: keyword containment in the description, skipped on the empty
query (`if search_query:`). -/
def keywordStage (l : List Announcement) (q : String) : List Announcement :=
  if q = "" then l else l.filter (fun a => containsRe a.Description q)

/-- Stage 5: the date-range filter (`if not filtered.empty:` then keep the
rows whose parsed `EventDate` lies between the bounds; `NaT` rows fail the
mask). -/
def dateStage (l : List Announcement) (lo hi : Nat) : List Announcement :=
  if l.isEmpty then l
  else
    l.filter (fun a =>
      match parseDate a.EventDate with
      | some d => decide (lo ≤ d) && decide (d ≤ hi)
      | none => false)

/-- The descending-by-`Date` comparison behind
`sort_values("Date", ascending=False)`: the pandas string column is
ordered lexicographically. -/
def dateGe (a b : Announcement) : Prop := strLe b.Date a.Date = true

instance : DecidableRel dateGe := fun a b => by
  unfold dateGe
  infer_instance

/-- Final step: `sort_values("Date", ascending=False)` — sort descending
by the creation-date string (pandas quicksort is not stable, so any
`Date`-sorted rearrangement is a faithful model; a stable sort is
used here). -/
def sortByDateDesc (l : List Announcement) : List Announcement :=
  List.insertionSort dateGe l

/-- The whole filter chain of `search_page`. -/
def applyFilters (tbl : List Announcement) (ft fc fcity q : String)
    (lo hi : Nat) : List Announcement :=
  sortByDateDesc
    (dateStage (keywordStage (cityStage (categoryStage (typeStage tbl ft) fc) fcity) q)
      lo hi)

/-- A sample record, used to instantiate the general theorems. -/
def A0 : Announcement :=
  { ID := "1", «Type» := "lost", Category := "Electronics", City := "Hawally",
    Description := "Black wallet with cards", Image1 := "", Image2 := "",
    Image3 := "", Phone := "12345678", Date := "2024-05-01",
    EventDate := "2024-03-01", DeletePassword := "abc123", Resolved := false }

/-- A record whose `EventDate` cell does not parse as a date (as arises
from a persisted file whose `EventDate` column is missing or corrupt). -/
def Abad : Announcement :=
  { A0 with ID := "9", EventDate := "" }

/-- First record of a duplicate-ID pair. -/
def R1 : Announcement :=
  { A0 with Description := "red bag", DeletePassword := "a" }

/-- Second record of the pair: same `ID` as `R1`, different content and
delete password (reachable because IDs are assigned as `row count + 1`
and rows can be deleted). -/
def R2 : Announcement :=
  { R1 with Description := "blue bag", DeletePassword := "b" }

/-- A record with an `ID` distinct from `R1`'s. -/
def S2 : Announcement :=
  { R1 with ID := "2", DeletePassword := "b" }

/-- A fully valid form input whose delete password carries a trailing
space. -/
def inpSpacePw : CreateInput :=
  { postType := "Lost", category := "Electronics", city := "Hawally",
    description := "Black wallet with cards", eventDate := "2024-03-01",
    phone := "12345678", deletePassword := "a ", images := [] }

/-- A fully valid form input. -/
def inpGood : CreateInput :=
  { inpSpacePw with deletePassword := "abc123" }

/-- A form input with a 7-digit phone number. -/
def inpBadPhone : CreateInput :=
  { inpGood with phone := "1234567" }

/-- Reading back the serialized cells of a record through the canonical
header reproduces the record. -/
theorem parseRow_rowCells (a : Announcement) :
    parseRow columns (rowCells a) = a := by
  cases a with
  | mk i t c ci de i1 i2 i3 p da ev dp r => cases r <;> rfl

/-- `load_data` after `save_data` is the identity on tables. -/
theorem load_save (df : List Announcement) :
    load_data (some (save_data df)) = df := by
  show (df.map rowCells).map (parseRow columns) = df
  rw [List.map_map]
  calc df.map (parseRow columns ∘ rowCells)
      = df.map id := List.map_congr_left (fun a _ => parseRow_rowCells a)
    _ = df := List.map_id df

/-- `isPrefixB` decides list prefixing. -/
theorem isPrefixB_iff (p l : List Char) : isPrefixB p l = true ↔ p <+: l := by
  induction p generalizing l with
  | nil => simp [isPrefixB]
  | cons a as ih =>
    cases l with
    | nil => simp [isPrefixB]
    | cons b bs =>
      show (a == b && isPrefixB as bs) = true ↔ a :: as <+: b :: bs
      rw [Bool.and_eq_true, List.cons_prefix_cons, ih, beq_iff_eq]

/-- Unfolding equation of `isSubB` on a cons cell. -/
theorem isSubB_cons (p : List Char) (c : Char) (rest : List Char) :
    isSubB p (c :: rest) = (isPrefixB p (c :: rest) || isSubB p rest) := rfl

/-- `isSubB` decides contiguous-substring containment. -/
theorem isSubB_iff (p l : List Char) : isSubB p l = true ↔ p <:+: l := by
  induction l with
  | nil =>
    show p.isEmpty = true ↔ p <:+: []
    simp [List.isEmpty_iff]
  | cons c rest ih =>
    rw [isSubB_cons, Bool.or_eq_true, isPrefixB_iff, ih, List.infix_cons_iff]

/-- Unfolding equation of `lexLe` on two cons cells. -/
theorem lexLe_cons (a b : Char) (as bs : List Char) :
    lexLe (a :: as) (b :: bs) =
      if a.toNat = b.toNat then lexLe as bs else decide (a.toNat < b.toNat) := rfl

/-- `lexLe` is total. -/
theorem lexLe_total (x y : List Char) : (lexLe x y || lexLe y x) = true := by
  induction x generalizing y with
  | nil => simp [lexLe]
  | cons a as ih =>
    cases y with
    | nil => simp [lexLe]
    | cons b bs =>
      rw [lexLe_cons, lexLe_cons]
      by_cases hab : a.toNat = b.toNat
      · rw [if_pos hab, if_pos hab.symm]
        exact ih bs
      · rw [if_neg hab, if_neg (fun e => hab e.symm)]
        have htri : a.toNat < b.toNat ∨ b.toNat < a.toNat := by omega
        rcases htri with h | h <;> simp [h]

/-- `lexLe` is transitive. -/
theorem lexLe_trans (x y z : List Char) (h1 : lexLe x y = true)
    (h2 : lexLe y z = true) : lexLe x z = true := by
  induction x generalizing y z with
  | nil => simp [lexLe]
  | cons a as ih =>
    cases y with
    | nil => simp [lexLe] at h1
    | cons b bs =>
      cases z with
      | nil => simp [lexLe] at h2
      | cons c cs =>
        rw [lexLe_cons] at h1 h2 ⊢
        by_cases hab : a.toNat = b.toNat <;> by_cases hbc : b.toNat = c.toNat
        · rw [if_pos hab] at h1
          rw [if_pos hbc] at h2
          rw [if_pos (hab.trans hbc)]
          exact ih bs cs h1 h2
        · rw [if_pos hab] at h1
          rw [if_neg hbc] at h2
          have hlt : b.toNat < c.toNat := of_decide_eq_true h2
          rw [if_neg (by omega : ¬a.toNat = c.toNat)]
          exact decide_eq_true (by omega)
        · rw [if_neg hab] at h1
          rw [if_pos hbc] at h2
          have hlt : a.toNat < b.toNat := of_decide_eq_true h1
          rw [if_neg (by omega : ¬a.toNat = c.toNat)]
          exact decide_eq_true (by omega)
        · rw [if_neg hab] at h1
          rw [if_neg hbc] at h2
          have p1 : a.toNat < b.toNat := of_decide_eq_true h1
          have p2 : b.toNat < c.toNat := of_decide_eq_true h2
          rw [if_neg (by omega : ¬a.toNat = c.toNat)]
          exact decide_eq_true (by omega)

/-- Prepending a column with a different name does not change a cell
lookup. -/
theorem rowGet_cons (h cells : List String) (c v c2 : String)
    (hne : ¬c = c2) :
    rowGet (c :: h) (v :: cells) c2 = rowGet h cells c2 := by
  unfold rowGet
  rw [List.findIdx?_cons, if_neg (by simpa using hne)]
  rw [List.findIdx?_succ]
  cases hfi : List.findIdx? (fun x => x == c2) h with
  | none => simp [hfi]
  | some i => simp [hfi]

/-- Looking up a column absent from the header yields the backfill value. -/
theorem rowGet_not_mem (h cells : List String) (c : String)
    (hc : c ∉ h) : rowGet h cells c = "" := by
  unfold rowGet
  have hf : List.findIdx? (fun x => x == c) h = none := by
    rw [List.findIdx?_eq_none_iff]
    intro x hx
    exact beq_eq_false_iff_ne.mpr (fun e : x = c => hc (e ▸ hx))
  rw [hf]

/-- When exactly the single row `R` carries `R`'s ID, dropping all rows
with that ID is the same as erasing `R`. -/
theorem filter_not_id_eq_erase (df : List Announcement) (R : Announcement)
    (hu : df.filter (fun a => a.ID == R.ID) = [R]) :
    df.filter (fun a => !(a.ID == R.ID)) = df.erase R := by
  induction df with
  | nil => simp at hu
  | cons a t ih =>
    by_cases h : a.ID = R.ID
    · rw [List.filter_cons_of_pos (by simpa using h)] at hu
      have ha : a = R := (List.cons_eq_cons.mp hu).1
      have ht : t.filter (fun a => a.ID == R.ID) = [] :=
        (List.cons_eq_cons.mp hu).2
      subst ha
      rw [List.filter_cons_of_neg (by simp [h]), List.erase_cons_head]
      exact List.filter_eq_self.mpr (fun x hx => by
        have hne := List.filter_eq_nil_iff.mp ht x hx
        simp at hne ⊢
        exact hne)
    · rw [List.filter_cons_of_neg (by simpa using h)] at hu
      have hne : ¬(a == R) := by
        intro e
        exact h (by rw [eq_of_beq e])
      rw [List.filter_cons_of_pos (by simpa using h),
        List.erase_cons_tail (by simpa using hne), ih hu]

/-- Claim C1: `create(input)` succeeds if and only if the description is
non-empty, the phone is exactly 8 numeric digits, and the delete password
is non-empty; when a validation fails, the submit action reports the
error and leaves both the in-memory table and the persisted file
unchanged. -/
theorem C1_create_validation (df : List Announcement) (file : Option Csv)
    (inp : CreateInput) (today : String) :
    ((submitAction df file inp today).2.2 = none ↔
      (inp.description ≠ "" ∧ inp.phone.data.length = 8 ∧
        inp.phone.data.all Char.isDigit = true ∧ inp.deletePassword ≠ "")) ∧
    ((submitAction df file inp today).2.2 ≠ none →
      (submitAction df file inp today).1 = df ∧
        (submitAction df file inp today).2.1 = file) := by
  have hph : phoneOk inp.phone = true ↔
      (inp.phone.data.length = 8 ∧ inp.phone.data.all Char.isDigit = true) := by
    simp [phoneOk]
  by_cases h1 : inp.description = ""
  · simp [submitAction, create, h1]
  · cases hp : phoneOk inp.phone with
    | false =>
      have hnp : ¬(inp.phone.data.length = 8 ∧
          inp.phone.data.all Char.isDigit = true) := by
        rw [← hph, hp]
        simp
      simp [submitAction, create, h1, hp, hnp]
      intro hlen hdig
      exact absurd ⟨by simpa using hlen, by simpa using hdig⟩ hnp
    | true =>
      by_cases h3 : inp.deletePassword = ""
      · simp [submitAction, create, h1, hp, h3]
      · simp [submitAction, create, h1, hp, h3, hph.mp hp]

/-- Witness for C1: a submit with a 7-digit phone number reports an error
and changes nothing. -/
theorem C1_witness :
    (submitAction [] none inpBadPhone "2024-05-01").1 = [] ∧
    (submitAction [] none inpBadPhone "2024-05-01").2.1 = none :=
  (C1_create_validation [] none inpBadPhone "2024-05-01").2 (by decide)

/-- Counterexample to claim C2 as stated: IDs are assigned as
`row count + 1`, so two distinct records can share an ID; deleting `R1`
with its own correct password then also removes the other record `R2`,
not "exactly the row R and no other row". -/
theorem C2_counterexample :
    R2 ∈ [R1, R2] ∧ R2 ≠ R1 ∧
    (deleteAction [R1, R2] none R1 R1.DeletePassword).2.2 = none ∧
    R2 ∉ (deleteAction [R1, R2] none R1 R1.DeletePassword).1 := by decide

/-- Claim C2 (amended): for every table and record `R` in it whose ID is
carried by no other row, `delete(R.ID, R.DeletePassword)` removes exactly
`R` and no other row, then persists the result. -/
theorem C2_delete_unique (df : List Announcement) (file : Option Csv)
    (R : Announcement) (hu : df.filter (fun a => a.ID == R.ID) = [R]) :
    (deleteAction df file R R.DeletePassword).1 = df.erase R ∧
    (deleteAction df file R R.DeletePassword).2.1 =
      some (save_data (df.erase R)) ∧
    (deleteAction df file R R.DeletePassword).2.2 = none := by
  have hf := filter_not_id_eq_erase df R hu
  simp [deleteAction, hf]

/-- Witness for C2 over a concrete two-row table with distinct IDs. -/
theorem C2_witness :
    (deleteAction [R1, S2] none R1 R1.DeletePassword).1 = [R1, S2].erase R1 :=
  (C2_delete_unique [R1, S2] none R1 (by decide)).1

/-- Claim C3: deleting a record with a wrong password leaves the table
and the persisted file completely unchanged and reports the auth
error. -/
theorem C3_delete_wrong_password (df : List Announcement) (file : Option Csv)
    (R : Announcement) (entered : String) (_hmem : R ∈ df)
    (hne : entered ≠ R.DeletePassword) :
    deleteAction df file R entered = (df, file, some AuthError.wrongPassword) := by
  simp [deleteAction, hne]

/-- Witness for C3 at a concrete record and wrong password. -/
theorem C3_witness :
    deleteAction [R1] none R1 "zzz" = ([R1], none, some AuthError.wrongPassword) :=
  C3_delete_wrong_password [R1] none R1 "zzz" (by decide) (by decide)

/-- Counterexample to claim C4 as stated: with the valid input
`inpSpacePw` (delete password "a ", non-empty) creation succeeds, but the
stored row's `DeletePassword` is the trimmed "a" — not the input field
verbatim. -/
theorem C4_counterexample :
    (submitAction [] none inpSpacePw "2024-05-01").2.2 = none ∧
    (submitAction [] none inpSpacePw "2024-05-01").1 =
      [new_post [] inpSpacePw "2024-05-01"] ∧
    (new_post [] inpSpacePw "2024-05-01").DeletePassword ≠
      inpSpacePw.deletePassword := by decide

/-- Claim C4 (amended): for every valid input (non-empty description,
8-digit phone, non-empty password), `create` appends exactly one row, and
`load` after `save` returns a table containing that row, with all fields
preserved verbatim except `Date` (server-stamped), `Type` (lowercased)
and `DeletePassword` (whitespace-trimmed). -/
theorem C4_create_appends (df : List Announcement) (file : Option Csv)
    (inp : CreateInput) (today : String)
    (h1 : inp.description ≠ "") (h2 : inp.phone.data.length = 8)
    (h3 : inp.phone.data.all Char.isDigit = true)
    (h4 : inp.deletePassword ≠ "") :
    (submitAction df file inp today).1 = df ++ [new_post df inp today] ∧
    (submitAction df file inp today).2.1 =
      some (save_data (df ++ [new_post df inp today])) ∧
    (submitAction df file inp today).2.2 = none ∧
    load_data (some (save_data (df ++ [new_post df inp today]))) =
      df ++ [new_post df inp today] ∧
    (new_post df inp today).Description = inp.description ∧
    (new_post df inp today).Phone = inp.phone ∧
    (new_post df inp today).Category = inp.category ∧
    (new_post df inp today).City = inp.city ∧
    (new_post df inp today).EventDate = inp.eventDate ∧
    (new_post df inp today).«Type» = lowerStr inp.postType ∧
    (new_post df inp today).Date = today ∧
    (new_post df inp today).DeletePassword = stripStr inp.deletePassword := by
  have hp : phoneOk inp.phone = true := by simp [phoneOk, h2, h3]
  have hok : create df inp today = .ok (df ++ [new_post df inp today]) := by
    simp [create, h1, hp, h4]
  refine ⟨?_, ?_, ?_, load_save _, rfl, rfl, rfl, rfl, rfl, rfl, rfl, rfl⟩ <;>
    simp [submitAction, hok]

/-- Witness for C4 at a concrete valid input. -/
theorem C4_witness :
    (submitAction [] none inpGood "2024-05-01").1 =
      [] ++ [new_post [] inpGood "2024-05-01"] :=
  (C4_create_appends [] none inpGood "2024-05-01" (by decide) (by decide)
    (by decide) (by decide)).1

/-- Counterexample to claim C5 as stated: under the no-restriction filter
(type, category and city "All", empty keyword, a date range covering every
parseable date code) a row whose `EventDate` cell does not parse is
dropped by the always-active date filter, so not every row of the table
is returned. -/
theorem C5_counterexample :
    Abad ∈ [Abad] ∧
    applyFilters [Abad] "All" "All" "All" "" 0 100000000 = [] := by decide

/-- Claim C5 (amended): applying the filter with no restrictions (type,
category and city "All", empty keyword, and a date range covering every
date occurring in the table) returns every row whose `EventDate` parses
as a date — rows with unparseable `EventDate` are dropped — ordered
descending by creation `Date`. -/
theorem C5_empty_filter (tbl : List Announcement) (lo hi : Nat)
    (hcover : ∀ r ∈ tbl, ∀ d, parseDate r.EventDate = some d →
      lo ≤ d ∧ d ≤ hi) :
    (applyFilters tbl "All" "All" "All" "" lo hi).Perm
      (tbl.filter (fun a => (parseDate a.EventDate).isSome)) ∧
    (applyFilters tbl "All" "All" "All" "" lo hi).Sorted dateGe := by
  have hstages :
      keywordStage (cityStage (categoryStage (typeStage tbl "All") "All") "All") "" = tbl := by
    simp [typeStage, categoryStage, cityStage, keywordStage]
  have hdate : dateStage tbl lo hi =
      tbl.filter (fun a => (parseDate a.EventDate).isSome) := by
    unfold dateStage
    by_cases he : tbl.isEmpty = true
    · rw [if_pos he, List.isEmpty_iff.mp he]
      simp
    · rw [if_neg he]
      apply List.filter_congr
      intro x hx
      cases hpx : parseDate x.EventDate with
      | none => simp
      | some d =>
        have hbound := hcover x hx d hpx
        simp [hbound.1, hbound.2]
  unfold applyFilters sortByDateDesc
  rw [hstages, hdate]
  constructor
  · exact List.perm_insertionSort dateGe _
  · haveI : IsTotal Announcement dateGe := ⟨fun a b => by
      unfold dateGe strLe
      have h := lexLe_total b.Date.data a.Date.data
      rw [Bool.or_eq_true_iff] at h
      exact h⟩
    haveI : IsTrans Announcement dateGe := ⟨fun a b c hab hbc =>
      lexLe_trans c.Date.data b.Date.data a.Date.data hbc hab⟩
    exact List.sorted_insertionSort dateGe _

/-- Witness for C5 on a concrete one-row table with a covering range. -/
theorem C5_witness :
    (applyFilters [A0] "All" "All" "All" "" 0 100000000).Perm
      ([A0].filter (fun a => (parseDate a.EventDate).isSome)) :=
  (C5_empty_filter [A0] 0 100000000 (fun r hr d hd => by
    have hr0 : r = A0 := by simpa using hr
    subst hr0
    have he : parseDate A0.EventDate = some 20240301 := by decide
    rw [he, Option.some_inj] at hd
    omega)).1

/-- On atoms compiled from literal characters, matching a prefix is
prefix comparison of the lowercased lists. -/
theorem reMatchHere_literal (p l : List Char) :
    reMatchHere (p.map RAtom.rchar) l =
      isPrefixB (p.map Char.toLower) (l.map Char.toLower) := by
  induction p generalizing l with
  | nil => rfl
  | cons c cs ih =>
    cases l with
    | nil => rfl
    | cons d ds =>
      show (atomMatch (RAtom.rchar c) d && reMatchHere (cs.map RAtom.rchar) ds) = _
      rw [ih ds]
      rfl

/-- On atoms compiled from literal characters, regex search is substring
search of the lowercased lists. -/
theorem reSearch_literal (p l : List Char) :
    reSearch (p.map RAtom.rchar) l =
      isSubB (p.map Char.toLower) (l.map Char.toLower) := by
  induction l with
  | nil =>
    cases p with
    | nil => rfl
    | cons c cs => rfl
  | cons d ds ih =>
    show (reMatchHere (p.map RAtom.rchar) (d :: ds) ||
      reSearch (p.map RAtom.rchar) ds) = _
    rw [reMatchHere_literal, ih]
    rfl

/-- A dot-free pattern compiles to its literal atoms. -/
theorem compilePat_literal (p : List Char) (hp : ∀ c ∈ p, ¬c = '.') :
    compilePat p = p.map RAtom.rchar := by
  induction p with
  | nil => rfl
  | cons c cs ih =>
    show (if c = '.' then RAtom.rdot else RAtom.rchar c) :: compilePat cs = _
    rw [if_neg (hp c (List.mem_cons_self c cs)),
      ih (fun x hx => hp x (List.mem_cons_of_mem c hx))]
    rfl

/-- On keywords free of regex metacharacters, the code's regex search
agrees with literal case-insensitive substring containment. -/
theorem containsRe_eq_containsCI (s q : String)
    (hq : ∀ c ∈ q.data, c ∉ reMeta) :
    containsRe s q = containsCI s q := by
  have hdot : ∀ c ∈ q.data, ¬c = '.' := by
    intro c hc e
    subst e
    exact hq _ hc (by decide)
  unfold containsRe containsCI
  rw [compilePat_literal q.data hdot, reSearch_literal]
  rfl

/-- Counterexample to claim C6 as stated: pandas `str.contains` reads the
keyword as a regular expression (`regex=True` by default), so searching
the keyword "." selects the sample record even though its description
contains no literal dot — the selected rows are not exactly those whose
description contains the keyword as a case-insensitive substring. -/
theorem C6_counterexample :
    A0 ∈ keywordStage [A0] "." ∧
    ¬(lowerStr ".").data <:+: (lowerStr A0.Description).data := by decide

/-- Claim C6 (amended): for keywords free of regular-expression
metacharacters, the keyword filter selects exactly the rows whose
`Description` contains the keyword as a case-insensitive substring (a
missing description cell reads back as the empty string and then matches
no non-empty keyword, without error); in particular, for every table and
every other filter setting, searching "Wallet" and "wallet" yield
identical results.  (In general the keyword is interpreted as a regular
expression.) -/
theorem C6_keyword_ci :
    (∀ (l : List Announcement) (q : String) (r : Announcement),
      (∀ c ∈ q.data, c ∉ reMeta) →
      (r ∈ keywordStage l q ↔
        r ∈ l ∧ (lowerStr q).data <:+: (lowerStr r.Description).data)) ∧
    (∀ (tbl : List Announcement) (ft fc fcity : String) (lo hi : Nat),
      applyFilters tbl ft fc fcity "Wallet" lo hi =
        applyFilters tbl ft fc fcity "wallet" lo hi) := by
  constructor
  · intro l q r hq
    unfold keywordStage
    by_cases hqe : q = ""
    · subst hqe
      rw [if_pos rfl]
      have hnil : (lowerStr "").data = ([] : List Char) := rfl
      simp [hnil]
    · rw [if_neg hqe, List.mem_filter,
        containsRe_eq_containsCI r.Description q hq]
      unfold containsCI
      rw [isSubB_iff]
  · intro tbl ft fc fcity lo hi
    unfold applyFilters
    have hk : ∀ l : List Announcement,
        keywordStage l "Wallet" = keywordStage l "wallet" := by
      intro l
      unfold keywordStage
      rw [if_neg (by decide), if_neg (by decide)]
      apply List.filter_congr
      intro x hx
      rw [containsRe_eq_containsCI x.Description "Wallet" (by decide),
        containsRe_eq_containsCI x.Description "wallet" (by decide)]
      unfold containsCI
      rw [show lowerStr "Wallet" = lowerStr "wallet" from by decide]
    rw [hk]

/-- Witness for C6: the sample record matches the keyword "Wallet". -/
theorem C6_witness : A0 ∈ keywordStage [A0] "Wallet" :=
  (C6_keyword_ci.1 [A0] "Wallet" A0 (by decide)).mpr ⟨by decide, by decide⟩

/-- Claim C7: the date-range filter keeps exactly the rows whose parsed
`EventDate` lies within the bounds, inclusive at both ends, and drops
rows whose `EventDate` fails to parse. -/
theorem C7_date_range (l : List Announcement) (lo hi : Nat)
    (r : Announcement) :
    r ∈ dateStage l lo hi ↔
      r ∈ l ∧ ∃ d, parseDate r.EventDate = some d ∧ lo ≤ d ∧ d ≤ hi := by
  unfold dateStage
  by_cases he : l.isEmpty = true
  · rw [if_pos he, List.isEmpty_iff.mp he]
    simp
  · rw [if_neg he, List.mem_filter]
    cases hp : parseDate r.EventDate with
    | none => simp [hp]
    | some d => simp [hp]

/-- Witness for C7: the sample record's event date lies in the range. -/
theorem C7_witness : A0 ∈ dateStage [A0] 0 100000000 :=
  (C7_date_range [A0] 0 100000000 A0).mpr
    ⟨by decide, 20240301, by decide, by decide, by decide⟩

/-- Claim C8: the persisted serialization round-trips:
`save(load(save(T)))` is structurally equal to `save(T)` for every
table `T`. -/
theorem C8_roundtrip (df : List Announcement) :
    save_data (load_data (some (save_data df))) = save_data df := by
  rw [load_save]

/-- Claim C9: `Resolved` is a dead field: creation always initializes it
to `false` (the input has no such field, so no operation ever derives a
value for it), and deletion never modifies a surviving record — the rows
of the result are rows of the input table, merely preserved. -/
theorem C9_resolved_dead :
    (∀ (df : List Announcement) (inp : CreateInput) (today : String)
        (df2 : List Announcement), create df inp today = .ok df2 →
      df2 = df ++ [new_post df inp today] ∧
        (new_post df inp today).Resolved = false) ∧
    (∀ (df : List Announcement) (file : Option Csv) (R : Announcement)
        (entered : String),
      ((deleteAction df file R entered).1).Sublist df) := by
  constructor
  · intro df inp today df2 hok
    unfold create at hok
    split_ifs at hok with h1 hp h3
    exact ⟨(Except.ok.inj hok).symm, rfl⟩
  · intro df file R entered
    unfold deleteAction
    by_cases h : entered = R.DeletePassword
    · rw [if_pos h]
      exact List.filter_sublist df
    · rw [if_neg h]

/-- Witness for C9 at a concrete successful creation. -/
theorem C9_witness :
    (new_post [] inpGood "2024-05-01").Resolved = false :=
  (C9_resolved_dead.1 [] inpGood "2024-05-01"
    ([] ++ [new_post [] inpGood "2024-05-01"]) (by rfl)).2

/-- Claim C10: `load` normalizes every persisted file to exactly the 13
canonical columns in their fixed order: the normalized store's header is
the canonical column list, an unrecognized extra column never affects the
loaded records, and a missing recognized column is backfilled (an empty
cell; hence the serialized `False` for the boolean `Resolved`). -/
theorem C10_schema :
    (∀ csv : Csv, (save_data (load_data (some csv))).header = columns) ∧
    (∀ (h cells : List String) (c v : String), c ∉ columns →
      parseRow (c :: h) (v :: cells) = parseRow h cells) ∧
    (∀ (h cells : List String) (c : String), c ∈ columns → c ∉ h →
      rowGet columns (rowCells (parseRow h cells)) c =
        if c = "Resolved" then "False" else "") := by
  refine ⟨fun csv => rfl, ?_, ?_⟩
  · intro h cells c v hc
    simp only [columns, List.mem_cons, List.not_mem_nil, or_false, not_or] at hc
    obtain ⟨n1, n2, n3, n4, n5, n6, n7, n8, n9, n10, n11, n12, n13⟩ := hc
    unfold parseRow
    rw [rowGet_cons h cells c v "ID" n1, rowGet_cons h cells c v "Type" n2,
      rowGet_cons h cells c v "Category" n3, rowGet_cons h cells c v "City" n4,
      rowGet_cons h cells c v "Description" n5,
      rowGet_cons h cells c v "Image1" n6, rowGet_cons h cells c v "Image2" n7,
      rowGet_cons h cells c v "Image3" n8, rowGet_cons h cells c v "Phone" n9,
      rowGet_cons h cells c v "Date" n10,
      rowGet_cons h cells c v "EventDate" n11,
      rowGet_cons h cells c v "DeletePassword" n12,
      rowGet_cons h cells c v "Resolved" n13]
  · intro h cells c hc hnotin
    simp only [columns, List.mem_cons, List.not_mem_nil, or_false] at hc
    rcases hc with rfl | rfl | rfl | rfl | rfl | rfl | rfl | rfl | rfl | rfl | rfl | rfl | rfl
    · rw [if_neg (by decide)]
      exact rowGet_not_mem h cells _ hnotin
    · rw [if_neg (by decide)]
      exact rowGet_not_mem h cells _ hnotin
    · rw [if_neg (by decide)]
      exact rowGet_not_mem h cells _ hnotin
    · rw [if_neg (by decide)]
      exact rowGet_not_mem h cells _ hnotin
    · rw [if_neg (by decide)]
      exact rowGet_not_mem h cells _ hnotin
    · rw [if_neg (by decide)]
      exact rowGet_not_mem h cells _ hnotin
    · rw [if_neg (by decide)]
      exact rowGet_not_mem h cells _ hnotin
    · rw [if_neg (by decide)]
      exact rowGet_not_mem h cells _ hnotin
    · rw [if_neg (by decide)]
      exact rowGet_not_mem h cells _ hnotin
    · rw [if_neg (by decide)]
      exact rowGet_not_mem h cells _ hnotin
    · rw [if_neg (by decide)]
      exact rowGet_not_mem h cells _ hnotin
    · rw [if_neg (by decide)]
      exact rowGet_not_mem h cells _ hnotin
    · rw [if_pos rfl]
      have hr : rowGet h cells "Resolved" = "" :=
        rowGet_not_mem h cells _ hnotin
      show (if parseResolved (rowGet h cells "Resolved")
        then "True" else "False") = "False"
      rw [hr]
      rfl

/-- Witness for C10: an unrecognized "Junk" column is dropped and a
missing "Phone" column reads back as the empty string. -/
theorem C10_witness :
    parseRow ("Junk" :: ["ID"]) ("x" :: ["7"]) = parseRow ["ID"] ["7"] ∧
    rowGet columns (rowCells (parseRow ["ID"] ["7"])) "Phone" = "" :=
  ⟨C10_schema.2.1 ["ID"] ["7"] "Junk" "x" (by decide),
   (C10_schema.2.2 ["ID"] ["7"] "Phone" (by decide) (by decide)).trans
     (by decide)⟩
